import Mathlib

/-!
Shallow embedding of `src/assets/js/script.js` (client-side behavior layer of
the GymWebsite marketing page), together with proofs about the embedded
operations.

The page is single-threaded and event-driven, so each behavior unit is
modelled as a pure step function on an explicit state record; timers
(`setTimeout`) are modelled as a pending (absoluteFireTime, payload) entry
that fires before any later event is processed.  Times are integers
(milliseconds, as returned by `Date.now()`); JavaScript numbers that take
part in arithmetic with possible `NaN` are modelled by `JSNum` below with
exact rational arithmetic.
-/

namespace GymSite

/-! ### Timing utilities (script.js lines 14–43) -/

/-- State closed over by the function returned by `throttle(func, delay)`:
`lastExecTime` (initially `0`), the single pending `setTimeout` (`timeoutId`)
as an absolute fire time with the arguments it will pass to `func`, and a log
of the executions of `func` performed so far as (time, arguments) pairs. -/
structure ThrottleState (α : Type) where
  lastExecTime : Int
  pending : Option (Int × α)
  execs : List (Int × α)
  deriving Repr, DecidableEq

/-- The event loop delivers a due timer callback before any later event: if
the pending timeout's fire time is `≤ t`, it runs `func` with its stored
arguments and sets `lastExecTime = Date.now()` (the fire time). -/
def firePending {α : Type} (s : ThrottleState α) (t : Int) : ThrottleState α :=
  match s.pending with
  | none => s
  | some (ft, a) =>
      if ft ≤ t then
        { lastExecTime := ft, pending := none, execs := s.execs ++ [(ft, a)] }
      else s

/-- One invocation of the throttled wrapper at absolute time `t` with
arguments `a` (script.js lines 29–42): if `currentTime - lastExecTime >
delay`, execute immediately and record the time; otherwise clear the pending
timeout and schedule a new one `delay - (currentTime - lastExecTime)` ms
later carrying these arguments.  Any timer due before `t` fires first. -/
def throttleCall {α : Type} (delay : Int) (s : ThrottleState α) (t : Int) (a : α) :
    ThrottleState α :=
  let s := firePending s t
  if t - s.lastExecTime > delay then
    { lastExecTime := t, pending := s.pending, execs := s.execs ++ [(t, a)] }
  else
    { lastExecTime := s.lastExecTime,
      pending := some (t + (delay - (t - s.lastExecTime)), a),
      execs := s.execs }

/-- Run the throttled wrapper over a time-ordered list of invocations,
starting from the fresh closure state (`lastExecTime = 0`, no timer), and
let any still-pending trailing timer fire at the end.  Returns the full
execution log of the underlying `func`. -/
def throttleRun {α : Type} (delay : Int) (calls : List (Int × α)) : List (Int × α) :=
  let s := calls.foldl (fun s c => throttleCall delay s c.1 c.2) ⟨0, none, []⟩
  match s.pending with
  | some (ft, a) => s.execs ++ [(ft, a)]
  | none => s.execs

/-- State closed over by the function returned by `debounce(func, wait)`:
the single pending timeout and the execution log. -/
structure DebounceState (α : Type) where
  pending : Option (Int × α)
  execs : List (Int × α)
  deriving Repr, DecidableEq

/-- A due debounce timer fires before any later event, executing `func` with
the stored arguments. -/
def debounceFire {α : Type} (s : DebounceState α) (t : Int) : DebounceState α :=
  match s.pending with
  | none => s
  | some (ft, a) =>
      if ft ≤ t then { pending := none, execs := s.execs ++ [(ft, a)] } else s

/-- One invocation of the debounced wrapper at time `t` with arguments `a`
(script.js lines 16–23): `clearTimeout(timeout)` cancels any still-pending
execution, then `setTimeout(later, wait)` schedules `func` with these
arguments `wait` ms from now. -/
def debounceCall {α : Type} (wait : Int) (s : DebounceState α) (t : Int) (a : α) :
    DebounceState α :=
  let s := debounceFire s t
  { pending := some (t + wait, a), execs := s.execs }

/-- Run the debounced wrapper over a time-ordered list of invocations from
the fresh closure state, letting the trailing timer fire at the end. -/
def debounceRun {α : Type} (wait : Int) (calls : List (Int × α)) : List (Int × α) :=
  let s := calls.foldl (fun s c => debounceCall wait s c.1 c.2) ⟨none, []⟩
  match s.pending with
  | some (ft, a) => s.execs ++ [(ft, a)]
  | none => s.execs

/-! ### Active navigation (script.js lines 156–178) -/

/-- The geometry of one `section[id]` element as read by the scroll handler:
its `id` attribute, `offsetTop` and `offsetHeight`. -/
structure PageSection where
  id : String
  offsetTop : Int
  offsetHeight : Int
  deriving Repr, DecidableEq

/-- The per-section test of the handler (lines 161–164): with `sectionTop =
section.offsetTop - 120`, the section matches when `scrollY >= sectionTop &&
scrollY < sectionTop + sectionHeight`. -/
def sectionMatches (scrollY : Int) (s : PageSection) : Bool :=
  scrollY ≥ s.offsetTop - 120 && scrollY < s.offsetTop - 120 + s.offsetHeight

/-- The variable `current` after the `sections.forEach` loop: starts as `''` and is
overwritten by the `id` of every matching section in document order, so the
last match wins. -/
def currentSection (sections : List PageSection) (scrollY : Int) : String :=
  sections.foldl (fun current s => if sectionMatches scrollY s then s.id else current) ""

/-- The `navLinks.forEach` loop (lines 169–174): every link loses `active`,
then the link whose `href` equals `'#' + current` gains it.  Each link is
represented by its `href`; the result pairs each link with its final
`active` state. -/
def updateNavLinks (links : List String) (current : String) : List (String × Bool) :=
  links.map fun href => (href, href == "#" ++ current)

/-! ### Counter animation (script.js lines 226–272)

`parseInt(element.getAttribute('data-target'))` yields either an integer or
`NaN`; arithmetic and comparisons involving the parsed value are modelled by
`JSNum`, with `nan` absorbing arithmetic and making every `<` comparison
false, and exact rationals elsewhere. -/

/-- A JavaScript number that is either `NaN` or an exact rational. -/
inductive JSNum where
  | nan : JSNum
  | num : ℚ → JSNum
  deriving Repr, DecidableEq

/-- JavaScript `+` on the modelled numbers: `NaN` absorbs. -/
def JSNum.add : JSNum → JSNum → JSNum
  | .num a, .num b => .num (a + b)
  | _, _ => .nan

/-- JavaScript division by the nonzero literal constant `duration / 16 =
2000 / 16 = 125`: `NaN / 125 = NaN`. -/
def JSNum.divConst : JSNum → ℚ → JSNum
  | .num a, c => .num (a / c)
  | .nan, _ => .nan

/-- JavaScript `<` on the modelled numbers: any comparison with `NaN` is
false. -/
def JSNum.ltJS : JSNum → JSNum → Bool
  | .num a, .num b => decide (a < b)
  | _, _ => false

/-- JavaScript `Math.floor` (used for the intermediate displayed values);
`Math.floor(NaN)` is `NaN`. -/
def JSNum.floorJS : JSNum → JSNum
  | .num a => .num ⌊a⌋
  | .nan => .nan

/-- The recursive `updateCounter` callback (lines 260–268): add `increment`
to `current`; while `current < target` display `Math.floor(current)` and
request another frame; otherwise display `target` and stop.  `fuel` bounds
the number of animation frames; `none` means the bound was exhausted before
the callback stopped rescheduling.  Returns the sequence of values written
to `element.textContent`. -/
def updateCounter (target increment : JSNum) : JSNum → Nat → Option (List JSNum)
  | _, 0 => none
  | current, fuel + 1 =>
      let c := current.add increment
      if c.ltJS target then
        (updateCounter target increment c fuel).map fun rest => c.floorJS :: rest
      else
        some [target]

/-- Function `animateCounter` (lines 254–271): `increment = target / (2000 / 16)`,
`current = 0`, then the frame loop. -/
def animateCounter (target : JSNum) (fuel : Nat) : Option (List JSNum) :=
  updateCounter target (target.divConst 125) (.num 0) fuel

/-- Whether a parsed target makes the very first comparison
`current < target` false (zero, negative, or `NaN`). -/
def JSNum.nonPos : JSNum → Bool
  | .nan => true
  | .num a => decide (a ≤ 0)

/-! ### Counter trigger via visited-set (script.js lines 226–247) -/

/-- The state of `CounterAnimation`: `animated` is the `Set` of elements
already animated, `runs` logs every call of `animateCounter` (by element).
Elements are identified by a natural number. -/
structure CounterSys where
  animated : List Nat
  runs : List Nat
  deriving Repr, DecidableEq

/-- One execution of the (throttled) scroll handler body (lines 234–241):
for each stat element in order, skip it if already in `animated`; otherwise,
if it is in the viewport, animate it and add it to `animated`.  `viewport`
tells which elements currently intersect the viewport. -/
def counterScan (viewport : Nat → Bool) (stats : List Nat) (s : CounterSys) : CounterSys :=
  stats.foldl
    (fun s stat =>
      if s.animated.contains stat then s
      else if viewport stat then
        { animated := s.animated ++ [stat], runs := s.runs ++ [stat] }
      else s)
    s

/-- A whole session: the handler fires once per (throttled) scroll event,
each time with the then-current viewport predicate, starting from the empty
visited-set. -/
def counterRun (stats : List Nat) (events : List (Nat → Bool)) : CounterSys :=
  events.foldl (fun s viewport => counterScan viewport stats s) ⟨[], []⟩

/-! ### Form validation (script.js lines 311–456) -/

/-- A character of the class `[^\s@]` from the e-mail regular expression
`/^[^\s@]+@[^\s@]+\.[^\s@]+$/`: neither whitespace nor `@`. -/
def isEmailChar (c : Char) : Bool := !c.isWhitespace && c != '@'

/-- Holds (`true`) when some character strictly before the last position is `'.'`.
Used for the `[^\s@]+\.[^\s@]+` part of the domain: a dot must have at least
one character after it. -/
def dotBeforeLast : List Char → Bool
  | [] => false
  | [_] => false
  | c :: rest => c == '.' || dotBeforeLast rest

/-- Tail of the e-mail match after the (unique possible) `@`: the characters
must all be `[^\s@]`, and some `'.'` must sit at a position that leaves a
nonempty `[^\s@]+` part on each side — i.e. not first and not last. -/
def emailTail (rest : List Char) : Bool :=
  !rest.isEmpty && rest.all isEmailChar && dotBeforeLast (rest.drop 1)

/-- Full-string match of `/^[^\s@]+@[^\s@]+\.[^\s@]+$/`.  The local part
cannot contain `@`, so the regex's `@` necessarily matches the first `@` of
the string; `seen` accumulates whether a nonempty all-`[^\s@]` local part
precedes it. -/
def emailMatchAux (seen : Bool) : List Char → Bool
  | [] => false
  | c :: rest =>
      if c == '@' then seen && emailTail rest
      else isEmailChar c && emailMatchAux true rest

/-- The e-mail validity test `emailRegex.test(value)` (line 371). -/
def emailMatch (s : String) : Bool := emailMatchAux false s.toList

/-- A character of the class `[\(\)\s\-\+\d]` from the phone regular
expression `/^[\(\)\s\-\+\d]{10,}$/`. -/
def isPhoneChar (c : Char) : Bool :=
  c == '(' || c == ')' || c.isWhitespace || c == '-' || c == '+' || c.isDigit

/-- The phone validity test `phoneRegex.test(value)` (line 380): at least 10
characters, all from the class. -/
def phoneMatch (s : String) : Bool :=
  decide (s.toList.length ≥ 10) && s.toList.all isPhoneChar

/-- JavaScript `String.prototype.trim`: strip leading and trailing
whitespace. -/
def jsTrim (s : String) : String :=
  ⟨((s.toList.dropWhile Char.isWhitespace).reverse.dropWhile Char.isWhitespace).reverse⟩

/-- Method `validateField` (lines 354–388) as a pure function of the field's raw
value, `type` and `required` attribute: the error message shown, or `none`
when the field is valid.  Checks run on `value.trim()` in source order:
required, then e-mail, then phone; JavaScript's emptiness test `!value` /
`value && …` on a string is equality with `""`. -/
def validateFieldMsg (value ftype : String) (required : Bool) : Option String :=
  let v := jsTrim value
  if required && v == "" then some "Este campo é obrigatório."
  else if ftype == "email" && v != "" && !emailMatch v then
    some "Por favor, insira um e-mail válido."
  else if ftype == "tel" && v != "" && !phoneMatch v then
    some "Por favor, insira um telefone válido."
  else none

/-- The boolean returned by `validateField`: `true` when valid. -/
def fieldValid (value ftype : String) (required : Bool) : Bool :=
  (validateFieldMsg value ftype required).isNone

/-- Observable per-field state: the raw value, the error display (the
`.form-error` element's visibility together with the `error` class on the
group), and — as ghost state for the invariant — the result of the most
recent `validateField` call on this field, `none` if it was never
validated. -/
structure FieldState where
  value : String
  errorShown : Bool
  lastValid : Option Bool
  deriving Repr, DecidableEq

/-- The events that reach one field's handlers: a `blur` (runs
`validateField`), an `input` carrying the new value (runs `clearError`), and
the per-field validation performed inside `validateForm` on submit. -/
inductive FieldEvent where
  | blur : FieldEvent
  | input : String → FieldEvent
  | submitCheck : FieldEvent
  deriving Repr, DecidableEq

/-- One handler step on one field.  `blur`/`submitCheck` run `validateField`
(lines 354–388): clear the previous error display, then show the first
failing check's message — so afterwards the error is shown iff the field is
invalid.  `input` (line 325) updates the value and runs `clearError` (lines
405–409), which only hides the error display. -/
def fieldStep (ftype : String) (required : Bool) (s : FieldState) : FieldEvent → FieldState
  | .blur =>
      { s with errorShown := (validateFieldMsg s.value ftype required).isSome,
               lastValid := some (fieldValid s.value ftype required) }
  | .input v => { s with value := v, errorShown := false }
  | .submitCheck =>
      { s with errorShown := (validateFieldMsg s.value ftype required).isSome,
               lastValid := some (fieldValid s.value ftype required) }

/-- A sequence of events on one field, from a given starting state. -/
def fieldRun (ftype : String) (required : Bool) (s : FieldState) (evs : List FieldEvent) :
    FieldState :=
  evs.foldl (fieldStep ftype required) s

/-! ### Form submit flow (script.js lines 329–352 and 423–444) -/

/-- One form field as `validateForm` sees it: raw value, `type`, `required`
attribute. -/
structure FormField where
  value : String
  ftype : String
  required : Bool
  deriving Repr, DecidableEq

/-- The outcome of awaiting the (pluggable) asynchronous submission: the
promise resolves or rejects. -/
inductive Outcome where
  | success : Outcome
  | failure : Outcome
  deriving Repr, DecidableEq

/-- Observable form-level state: the fields, the single `.form-error-general`
banner (`none` when absent), the success banner, the submit button, and — as
ghost state — how many submissions were attempted (how many times
`submitForm` entered its `try` block). -/
structure FormState where
  fields : List FormField
  generalError : Option String
  successBanner : Option String
  submitDisabled : Bool
  submitLabel : String
  submitAttempts : Nat
  deriving Repr, DecidableEq

/-- Method `validateForm` (lines 341–352): run `validateField` over every
`[required]` field; the form is valid when all pass. -/
def validateForm (fields : List FormField) : Bool :=
  (fields.filter fun f => f.required).all fun f => fieldValid f.value f.ftype f.required

/-- Method `submitForm` (lines 423–444) with the awaited submission outcome made
explicit: capture `originalText`, disable the button and set the pending
label, then on success append the success banner and `form.reset()` (clear
every field value), on failure show the general error; `finally` re-enable
the button and restore the captured label. -/
def submitForm (outcome : Outcome) (s : FormState) : FormState :=
  let originalText := s.submitLabel
  let s := { s with submitDisabled := true, submitLabel := "Enviando...",
                    submitAttempts := s.submitAttempts + 1 }
  let s :=
    match outcome with
    | .success =>
        { s with successBanner :=
                   some "Mensagem enviada com sucesso! Entraremos em contato em breve.",
                 fields := s.fields.map fun (f : FormField) => { f with value := "" } }
    | .failure => { s with generalError := some "Erro ao enviar mensagem. Tente novamente." }
  { s with submitDisabled := false, submitLabel := originalText }

/-- Method `handleSubmit` (lines 329–339): prevent default, validate the form,
submit when valid, otherwise show the single general form-level error. -/
def handleSubmit (outcome : Outcome) (s : FormState) : FormState :=
  if validateForm s.fields then submitForm outcome s
  else { s with generalError := some "Por favor, corrija os erros antes de enviar." }

/-! ### Theorems about the timing utilities -/

/-- C1 counterexample.  For invocations at t = 1000, 1005, 1012 (the clock
value at the first call is immaterial beyond exceeding the delay) with
delay 10, the underlying action executes three times, not twice: the
trailing timer scheduled by the t = 1005 call fires at t = 1010 — before
the t = 1012 call — carrying the t = 1005 arguments, and the t = 1012 call
then schedules a further trailing execution at t = 1020. -/
theorem throttle_three_execs_counterexample :
    throttleRun 10 [((1000 : Int), (1 : Nat)), (1005, 2), (1012, 3)]
      = [(1000, 1), (1010, 2), (1020, 3)] ∧
    (throttleRun 10 [((1000 : Int), (1 : Nat)), (1005, 2), (1012, 3)]).length ≠ 2 := by
  constructor
  · decide
  · decide

/-- C1 amended.  For invocations at t₀, t₀ + 5, t₀ + 12 with delay 10, from
a fresh throttle closure whose clock reads t₀ > 10 at the first call, the
underlying action executes exactly three times: immediately at t₀ with the
first call's arguments, at t₀ + 10 as a trailing execution carrying the
second (t + 5) call's arguments, and at t₀ + 20 as a trailing execution
carrying the third (t + 12) call's arguments. -/
theorem throttle_three_calls {α : Type} (a b c : α) (t0 : Int) (h : 10 < t0) :
    throttleRun 10 [(t0, a), (t0 + 5, b), (t0 + 12, c)]
      = [(t0, a), (t0 + 10, b), (t0 + 20, c)] := by
  have h1 : t0 - 0 > 10 := by omega
  have h2 : ¬(t0 + 5 - t0 > 10) := by omega
  simp only [throttleRun, List.foldl, throttleCall, firePending]
  rw [if_pos h1]
  simp only
  rw [if_neg h2]
  simp only
  rw [if_pos (by omega : t0 + 5 + (10 - (t0 + 5 - t0)) ≤ t0 + 12)]
  simp only
  rw [if_neg (by omega : ¬(t0 + 12 - (t0 + 5 + (10 - (t0 + 5 - t0))) > 10))]
  simp only [List.append_assoc, List.singleton_append, List.cons_append, List.nil_append,
    List.cons.injEq, Prod.mk.injEq, eq_self_iff_true, and_true, true_and]
  omega

/-- C1 witness for the amended theorem, at t₀ = 1000. -/
theorem throttle_three_calls_witness :
    (10 : Int) < 1000 ∧
    throttleRun 10 [((1000 : Int), (1 : Nat)), (1000 + 5, 2), (1000 + 12, 3)]
      = [(1000, 1), (1000 + 10, 2), (1000 + 20, 3)] :=
  ⟨by decide, throttle_three_calls 1 2 3 1000 (by decide)⟩

/-- Helper for C9: while every next call arrives strictly before the pending
timer would fire, the fold just replaces the pending execution, and the
final pending entry carries the last call's time-plus-wait and arguments. -/
theorem debounce_foldl_burst {α : Type} (wait : Int) :
    ∀ (rest : List (Int × α)) (p : Int × α) (execs : List (Int × α)),
      List.Chain (fun p q => p.1 < q.1 ∧ q.1 - p.1 < wait) p rest →
      List.foldl (fun s c => debounceCall wait s c.1 c.2)
          ⟨some (p.1 + wait, p.2), execs⟩ rest
        = ⟨some ((rest.getLastD p).1 + wait, (rest.getLastD p).2), execs⟩ := by
  intro rest
  induction rest with
  | nil => intro p execs _; rfl
  | cons q rest ih =>
      intro p execs hchain
      rcases hchain with _ | ⟨⟨_, hgap⟩, htail⟩
      have hstep : debounceCall wait ⟨some (p.1 + wait, p.2), execs⟩ q.1 q.2
          = ⟨some (q.1 + wait, q.2), execs⟩ := by
        simp only [debounceCall, debounceFire]
        rw [if_neg (by omega : ¬(p.1 + wait ≤ q.1))]
      rw [List.foldl_cons]
      rw [hstep, ih q execs htail, List.getLastD_cons]

/-- C9.  A burst of N ≥ 1 invocations of the debounced wrapper, each
arriving strictly less than `wait` after the previous one, makes the
underlying action execute exactly once: at `wait` after the last call, with
the last call's arguments. -/
theorem debounce_burst_once {α : Type} (wait : Int) (first : Int × α)
    (rest : List (Int × α))
    (h : List.Chain (fun p q => p.1 < q.1 ∧ q.1 - p.1 < wait) first rest) :
    debounceRun wait (first :: rest)
      = [((rest.getLastD first).1 + wait, (rest.getLastD first).2)] := by
  have hfirst : debounceCall wait ⟨none, []⟩ first.1 first.2
      = ⟨some (first.1 + wait, first.2), []⟩ := rfl
  simp only [debounceRun, List.foldl_cons]
  rw [hfirst, debounce_foldl_burst wait rest first [] h]
  rfl

/-- C9 witness: three calls at t = 0, 3, 5 with wait 10 collapse to the
single execution at t = 15 with the third call's arguments. -/
theorem debounce_burst_once_witness :
    List.Chain (fun p q : Int × Nat => p.1 < q.1 ∧ q.1 - p.1 < 10) (0, 1) [(3, 2), (5, 3)] ∧
    debounceRun 10 [((0 : Int), (1 : Nat)), (3, 2), (5, 3)]
      = [(([((3 : Int), (2 : Nat)), (5, 3)].getLastD (0, 1)).1 + 10,
          ([((3 : Int), (2 : Nat)), (5, 3)].getLastD (0, 1)).2)] := by
  have hch : List.Chain (fun p q : Int × Nat => p.1 < q.1 ∧ q.1 - p.1 < 10)
      (0, 1) [(3, 2), (5, 3)] :=
    List.Chain.cons (by decide) (List.Chain.cons (by decide) List.Chain.nil)
  exact ⟨hch, debounce_burst_once 10 (0, 1) [(3, 2), (5, 3)] hch⟩

/-! ### Theorems about active-link highlighting -/

/-- The three demo sections of the spec's test property: `offsetTop` values
0, 800, 1600, each of height 800. -/
def demoSections : List PageSection :=
  [⟨"s1", 0, 800⟩, ⟨"s2", 800, 800⟩, ⟨"s3", 1600, 800⟩]

/-- Nav links targeting the three demo sections. -/
def demoNavLinks : List String := ["#s1", "#s2", "#s3"]

/-- Helper: the `forEach` fold keeps the id of the last matching section,
and the default's id when none matches. -/
theorem currentSection_foldl_eq (y : Int) :
    ∀ (l : List PageSection) (d : PageSection),
      l.foldl (fun current s => if sectionMatches y s then s.id else current) d.id
        = ((l.filter fun s => sectionMatches y s).getLastD d).id := by
  intro l
  induction l with
  | nil => intro d; rfl
  | cons s l ih =>
      intro d
      rw [List.foldl_cons]
      by_cases hp : sectionMatches y s
      · rw [if_pos hp]
        have hf : (s :: l).filter (fun s => sectionMatches y s)
            = s :: l.filter (fun s => sectionMatches y s) := by
          simp [List.filter_cons, hp]
        rw [hf, List.getLastD_cons]
        exact ih s
      · rw [if_neg hp]
        have hf : (s :: l).filter (fun s => sectionMatches y s)
            = l.filter (fun s => sectionMatches y s) := by
          simp [List.filter_cons, hp]
        rw [hf]
        exact ih d

/-- C2 counterexample.  At `scrollY = -50` the first section (offsetTop 0,
height 800) satisfies `-50 ≥ 0 - 120 && -50 < 0 - 120 + 800`, so `current`
is `"s1"` and the first nav link is active — not, as claimed, no link. -/
theorem activeNav_negative_scroll_counterexample :
    currentSection demoSections (-50) = "s1" ∧
    updateNavLinks demoNavLinks (currentSection demoSections (-50))
      = [("#s1", true), ("#s2", false), ("#s3", false)] ∧
    ¬((updateNavLinks demoNavLinks (currentSection demoSections (-50))).all
        fun p => !p.2) = true := by
  refine ⟨by decide, by decide, by decide⟩

/-- C2 amended.  For every scroll offset each section is tested for
`scrollY ∈ [offsetTop − 120, offsetTop − 120 + offsetHeight)`; the last
matching section in document order is `current` and exactly the links whose
`href` is `"#" + current` are active.  For the demo sections, `scrollY = 850`
makes the second section active; `scrollY = -50` makes the *first* section
active (its lower test bound is −120), not none. -/
theorem activeNav_amended :
    (∀ (sections : List PageSection) (y : Int),
        currentSection sections y
          = ((sections.filter fun s => sectionMatches y s).getLastD ⟨"", 0, 0⟩).id) ∧
    (∀ (links : List String) (current href : String),
        ((href, true) ∈ updateNavLinks links current ↔
          href ∈ links ∧ href = "#" ++ current)) ∧
    currentSection demoSections 850 = "s2" ∧
    updateNavLinks demoNavLinks (currentSection demoSections 850)
      = [("#s1", false), ("#s2", true), ("#s3", false)] ∧
    currentSection demoSections (-50) = "s1" ∧
    updateNavLinks demoNavLinks (currentSection demoSections (-50))
      = [("#s1", true), ("#s2", false), ("#s3", false)] := by
  refine ⟨?_, ?_, by decide, by decide, by decide, by decide⟩
  · intro sections y
    exact currentSection_foldl_eq y sections ⟨"", 0, 0⟩
  · intro links current href
    constructor
    · intro hmem
      rcases List.mem_map.mp hmem with ⟨h, hh, heq⟩
      rcases Prod.mk.injEq .. ▸ heq with ⟨rfl, hbeq⟩
      exact ⟨hh, beq_iff_eq.mp hbeq⟩
    · rintro ⟨hmem, rfl⟩
      exact List.mem_map.mpr ⟨_, hmem, by simp⟩

/-! ### Theorems about field validation and the form flow -/

/-- C8.  The e-mail field value `"a@b"` is invalid and `"a@b.com"` is valid
(whether or not the field is required), and every required field whose value
trims to the empty string is invalid regardless of its type. -/
theorem validateField_email_and_required :
    (∀ required : Bool, fieldValid "a@b" "email" required = false) ∧
    (∀ required : Bool, fieldValid "a@b.com" "email" required = true) ∧
    (∀ (ftype value : String), jsTrim value = "" → fieldValid value ftype true = false) := by
  refine ⟨by decide, by decide, ?_⟩
  intro ftype value h
  simp [fieldValid, validateFieldMsg, h]

/-- C8 witness: the all-whitespace value `"  "` trims to empty and fails
validation for a required `tel` field. -/
theorem validateField_email_and_required_witness :
    jsTrim "  " = "" ∧ fieldValid "  " "tel" true = false :=
  ⟨by decide, validateField_email_and_required.2.2 "tel" "  " (by decide)⟩

/-- The invariant claimed by C4: the error display equals the negation of
the last computed validity (shown iff the most recent validation returned
invalid). -/
def errorMatchesLastValidity (s : FieldState) : Bool :=
  s.errorShown == decide (s.lastValid = some false)

/-- C4 counterexample.  A required text field: blur on the empty value shows
the error and records invalid; a subsequent input event clears the display
without re-validating, so the error is hidden while the last computed
validity is still `false` — the claimed invariant fails after the input
step. -/
theorem errorDisplay_invariant_counterexample :
    fieldRun "text" true ⟨"", false, none⟩ [.blur, .input "a"]
      = ⟨"a", false, some false⟩ ∧
    ¬errorMatchesLastValidity
        (fieldRun "text" true ⟨"", false, none⟩ [.blur, .input "a"]) = true := by
  refine ⟨by decide, by decide⟩

/-- C4 amended.  After a blur or submit validation step the error display is
the negation of the just-computed validity (and the recorded last validity
is that result); after an input step the error display is cleared
unconditionally and the last computed validity is unchanged — so the
claimed display/validity equivalence holds after blur and submit
validations, but not in general after input. -/
theorem errorDisplay_after_steps :
    ∀ (ftype : String) (required : Bool) (s : FieldState),
      ((fieldStep ftype required s .blur).errorShown
          = !fieldValid s.value ftype required ∧
        (fieldStep ftype required s .blur).lastValid
          = some (fieldValid s.value ftype required) ∧
        errorMatchesLastValidity (fieldStep ftype required s .blur) = true) ∧
      ((fieldStep ftype required s .submitCheck).errorShown
          = !fieldValid s.value ftype required ∧
        (fieldStep ftype required s .submitCheck).lastValid
          = some (fieldValid s.value ftype required) ∧
        errorMatchesLastValidity (fieldStep ftype required s .submitCheck) = true) ∧
      (∀ v : String,
        (fieldStep ftype required s (.input v)).errorShown = false ∧
        (fieldStep ftype required s (.input v)).lastValid = s.lastValid) := by
  intro ftype required s
  refine ⟨⟨?_, rfl, ?_⟩, ⟨?_, rfl, ?_⟩, fun v => ⟨rfl, rfl⟩⟩ <;>
    simp [fieldStep, fieldValid, errorMatchesLastValidity, Option.isSome, Option.isNone] <;>
    cases validateFieldMsg s.value ftype required <;> simp

/-- C5.  Whatever the submission outcome, `submitForm` leaves the submit
control re-enabled and its label restored to the exact text it had before
submission began. -/
theorem submitForm_restores_button :
    ∀ (outcome : Outcome) (s : FormState),
      (submitForm outcome s).submitDisabled = false ∧
      (submitForm outcome s).submitLabel = s.submitLabel := by
  intro outcome s
  cases outcome <;> exact ⟨rfl, rfl⟩

/-- C6.  When some required field of the form is invalid, submit shows the
single general form-level error and changes nothing else: no submission is
attempted and the field values are untouched. -/
theorem handleSubmit_invalid_aborts (outcome : Outcome) (s : FormState)
    (h : ∃ f ∈ s.fields, f.required = true ∧ fieldValid f.value f.ftype f.required = false) :
    handleSubmit outcome s
      = { s with generalError := some "Por favor, corrija os erros antes de enviar." } ∧
    (handleSubmit outcome s).fields = s.fields ∧
    (handleSubmit outcome s).submitAttempts = s.submitAttempts := by
  rcases h with ⟨f, hmem, hreq, hinvalid⟩
  have hvf : validateForm s.fields = false := by
    rw [validateForm]
    rw [List.all_eq_false]
    refine ⟨f, List.mem_filter.mpr ⟨hmem, hreq⟩, ?_⟩
    simp [hinvalid]
  have hs : handleSubmit outcome s
      = { s with generalError := some "Por favor, corrija os erros antes de enviar." } := by
    rw [handleSubmit, hvf]
    simp
  exact ⟨hs, by rw [hs], by rw [hs]⟩

/-- C6 witness: a form whose single field is required and empty is not
submitted; only the general error appears. -/
theorem handleSubmit_invalid_aborts_witness :
    (∃ f ∈ [(⟨"", "text", true⟩ : FormField)],
        f.required = true ∧ fieldValid f.value f.ftype f.required = false) ∧
    (handleSubmit .success
        ⟨[⟨"", "text", true⟩], none, none, false, "Enviar", 0⟩
      = { (⟨[⟨"", "text", true⟩], none, none, false, "Enviar", 0⟩ : FormState) with
            generalError := some "Por favor, corrija os erros antes de enviar." } ∧
      (handleSubmit .success
          ⟨[⟨"", "text", true⟩], none, none, false, "Enviar", 0⟩).fields
        = [⟨"", "text", true⟩] ∧
      (handleSubmit .success
          ⟨[⟨"", "text", true⟩], none, none, false, "Enviar", 0⟩).submitAttempts = 0) :=
  ⟨⟨⟨"", "text", true⟩, by decide, by decide, by decide⟩,
    handleSubmit_invalid_aborts .success
      ⟨[⟨"", "text", true⟩], none, none, false, "Enviar", 0⟩
      ⟨⟨"", "text", true⟩, by decide, by decide, by decide⟩⟩

/-! ### Theorems about the counter trigger -/

/-- Helper: on `Nat` elements, `List.contains` is just decidable
membership. -/
theorem contains_eq_decide_mem (l : List Nat) (x : Nat) : l.contains x = decide (x ∈ l) := by
  simp [List.contains]

/-- Helper invariant for C7: for any fixed element, the number of animation
runs logged so far is bounded by 1 if the element is in the visited-set and
by 0 otherwise, and one handler execution preserves this. -/
theorem counterScan_count_bound (stat : Nat) (viewport : Nat → Bool) :
    ∀ (stats : List Nat) (s : CounterSys),
      s.runs.count stat ≤ (if s.animated.contains stat then 1 else 0) →
      (counterScan viewport stats s).runs.count stat
        ≤ (if (counterScan viewport stats s).animated.contains stat then 1 else 0) := by
  intro stats
  induction stats with
  | nil => intro s h; exact h
  | cons st stats ih =>
      intro s h
      simp only [counterScan, List.foldl_cons]
      simp only [counterScan] at ih
      apply ih
      by_cases hc : s.animated.contains st
      · rw [if_pos hc]; exact h
      · rw [if_neg hc]
        by_cases hv : viewport st
        · rw [if_pos hv]
          simp only [List.count_append, contains_eq_decide_mem, List.mem_append,
            List.mem_singleton] at h ⊢
          by_cases hst : st = stat
          · subst hst
            have h0 : s.runs.count st = 0 := by
              rw [contains_eq_decide_mem] at hc
              simp only [decide_eq_true_eq] at hc
              simp [hc] at h
              omega
            simp [h0, List.count_singleton_self]
          · have hcnt : List.count stat [st] = 0 :=
              List.count_eq_zero_of_not_mem (by simp [Ne.symm hst])
            rw [hcnt]
            by_cases hmem : stat ∈ s.animated
            · simp [hmem] at h ⊢; omega
            · simp [hmem, Ne.symm hst] at h ⊢
              omega
        · rw [if_neg hv]; exact h

/-- Helper for C7: once an element is in the visited-set, a handler
execution neither animates it again nor removes it. -/
theorem counterScan_frozen (stat : Nat) (viewport : Nat → Bool) :
    ∀ (stats : List Nat) (s : CounterSys),
      s.animated.contains stat = true →
      (counterScan viewport stats s).animated.contains stat = true ∧
      (counterScan viewport stats s).runs.count stat = s.runs.count stat := by
  intro stats
  induction stats with
  | nil => intro s h; exact ⟨h, rfl⟩
  | cons st stats ih =>
      intro s h
      simp only [counterScan, List.foldl_cons]
      simp only [counterScan] at ih
      by_cases hc : s.animated.contains st
      · rw [if_pos hc]; exact ih s h
      · rw [if_neg hc]
        by_cases hv : viewport st
        · rw [if_pos hv]
          have hst : st ≠ stat := by
            intro heq; subst heq; exact hc h
          have h1 : (s.animated ++ [st]).contains stat = true := by
            rw [contains_eq_decide_mem] at h ⊢
            simp only [decide_eq_true_eq] at h ⊢
            simp [List.mem_append, h]
          have h3 : List.count stat [st] = 0 :=
            List.count_eq_zero_of_not_mem (by simp [Ne.symm hst])
          have h2 : (s.runs ++ [st]).count stat = s.runs.count stat := by
            rw [List.count_append, h3]
            omega
          rcases ih ⟨s.animated ++ [st], s.runs ++ [st]⟩ h1 with ⟨ha, hr⟩
          exact ⟨ha, by rw [hr]; exact h2⟩
        · rw [if_neg hv]; exact ih s h

/-- C7.  Each counter element animates at most once: over any session (any
sequence of handler executions, each seeing an arbitrary viewport), every
element is passed to `animateCounter` at most once; and once an element is
in the visited-set, a further handler execution starts no new animation for
it. -/
theorem counter_animates_at_most_once :
    (∀ (stats : List Nat) (events : List (Nat → Bool)) (stat : Nat),
        (counterRun stats events).runs.count stat ≤ 1) ∧
    (∀ (viewport : Nat → Bool) (stats : List Nat) (s : CounterSys) (stat : Nat),
        s.animated.contains stat = true →
        (counterScan viewport stats s).runs.count stat = s.runs.count stat) := by
  constructor
  · intro stats events stat
    suffices h : ∀ (evs : List (Nat → Bool)) (s : CounterSys),
        s.runs.count stat ≤ (if s.animated.contains stat then 1 else 0) →
        (evs.foldl (fun s viewport => counterScan viewport stats s) s).runs.count stat
          ≤ (if (evs.foldl (fun s viewport => counterScan viewport stats s) s).animated.contains
                stat then 1 else 0) by
      have h0 : (⟨[], []⟩ : CounterSys).runs.count stat
          ≤ (if (⟨[], []⟩ : CounterSys).animated.contains stat then 1 else 0) := by
        simp [List.count_nil]
      have := h events ⟨[], []⟩ h0
      rw [counterRun]
      split at this <;> omega
    intro evs
    induction evs with
    | nil => intro s h; exact h
    | cons viewport evs ih =>
        intro s h
        rw [List.foldl_cons]
        exact ih _ (counterScan_count_bound stat viewport stats s h)
  · intro viewport stats s stat h
    exact (counterScan_frozen stat viewport stats s h).2

/-- C7 witness: with element 5 already in the visited-set, a handler
execution that sees it in the viewport does not animate it again. -/
theorem counter_animates_at_most_once_witness :
    ((⟨[5], [5]⟩ : CounterSys).animated.contains 5 = true) ∧
    (counterScan (fun _ => true) [5] ⟨[5], [5]⟩).runs.count 5
      = (⟨[5], [5]⟩ : CounterSys).runs.count 5 :=
  ⟨by decide, counter_animates_at_most_once.2 (fun _ => true) [5] ⟨[5], [5]⟩ 5 (by decide)⟩

/-! ### Theorems about the counter animation loop -/

/-- Helper: closed form of the frame loop for a positive target.  Starting
from `current = j · (target/125)` with `j < 125` and enough fuel, the loop
displays `⌊(j+1)·(t/125)⌋, …, ⌊124·(t/125)⌋` and finally `target`. -/
theorem updateCounter_pos_char (t : ℚ) (ht : 0 < t) :
    ∀ (fuel j : ℕ), j < 125 → 125 - j ≤ fuel →
      updateCounter (.num t) (.num (t / 125)) (.num ((j : ℚ) * (t / 125))) fuel
        = some (((List.range (124 - j)).map
              fun k : ℕ => JSNum.num ⌊((j : ℚ) + 1 + (k : ℚ)) * (t / 125)⌋) ++ [.num t]) := by
  intro fuel
  induction fuel with
  | zero => intro j hj hf; omega
  | succ fuel ih =>
      intro j hj hf
      have hx : (0 : ℚ) < t / 125 := by positivity
      simp only [updateCounter, JSNum.add, JSNum.ltJS, decide_eq_true_eq]
      have hc1 : ((j : ℚ) * (t / 125) + t / 125) = ((j : ℚ) + 1) * (t / 125) := by ring
      rw [hc1]
      by_cases hj124 : j = 124
      · subst hj124
        have hceq : ((124 : ℕ) : ℚ) + 1 = 125 := by norm_num
        have hct : (((124 : ℕ) : ℚ) + 1) * (t / 125) = t := by
          rw [hceq]; field_simp
        rw [if_neg (by rw [hct]; exact lt_irrefl t)]
        norm_num
      · have hlt : ((j : ℚ) + 1) < 125 := by
          have h125 : (j : ℕ) + 1 < 125 := by omega
          exact_mod_cast h125
        have hcond : ((j : ℚ) + 1) * (t / 125) < t := by
          calc ((j : ℚ) + 1) * (t / 125) < 125 * (t / 125) :=
                mul_lt_mul_of_pos_right hlt hx
            _ = t := by field_simp
        rw [if_pos hcond]
        have hc2 : ((j : ℚ) + 1) * (t / 125) = ((j + 1 : ℕ) : ℚ) * (t / 125) := by
          push_cast; ring
        have hrange : 124 - j = (124 - (j + 1)) + 1 := by omega
        rw [hc2, ih (j + 1) (by omega) (by omega)]
        rw [hrange, List.range_succ_eq_map, List.map_cons, List.map_map]
        simp only [Option.map_some']
        refine congrArg some ?_
        rw [List.cons_append]
        refine congrArg₂ List.cons ?_ ?_
        · have h0 : ((j + 1 : ℕ) : ℚ) * (t / 125)
              = ((j : ℚ) + 1 + ((0 : ℕ) : ℚ)) * (t / 125) := by
            push_cast; ring
          simp only [JSNum.floorJS]
          rw [h0]
        · refine congrArg₂ (· ++ ·) ?_ rfl
          refine List.map_congr_left ?_
          intro k hk
          simp only [Function.comp_apply]
          have harg : ((j + 1 : ℕ) : ℚ) + 1 + (k : ℚ)
              = (j : ℚ) + 1 + ((Nat.succ k : ℕ) : ℚ) := by
            push_cast; ring
          rw [harg]

/-- The sequence of values a positive-target counter writes to
`element.textContent`: the floors of the 124 intermediate running values,
then exactly the target. -/
def counterDisplays (t : ℚ) : List JSNum :=
  ((List.range 124).map fun k : ℕ => JSNum.num ⌊(1 + (k : ℚ)) * (t / 125)⌋) ++ [.num t]

/-- Helper: for a positive target the animation runs 125 frames and writes
exactly `counterDisplays`. -/
theorem animateCounter_pos_char (t : ℚ) (ht : 0 < t) :
    animateCounter (.num t) 125 = some (counterDisplays t) := by
  have h := updateCounter_pos_char t ht 125 0 (by omega) (by omega)
  simp only [Nat.cast_zero, zero_mul, zero_add, Nat.sub_zero] at h
  rw [animateCounter, JSNum.divConst, counterDisplays]
  exact h

/-- Numeric non-strict order on displayed values (`NaN` compares with
nothing). -/
def numLE : JSNum → JSNum → Prop
  | .num a, .num b => a ≤ b
  | _, _ => False

/-- C3 counterexample.  For target 100 the increment is 100/125 = 0.8, so
the displayed floors repeat — frames 5 and 6 both display 4
(⌊5·0.8⌋ = ⌊6·0.8⌋ = 4) — hence the displayed sequence is *not* strictly
increasing. -/
theorem counter_strict_increase_counterexample :
    animateCounter (.num 100) 125 = some (counterDisplays 100) ∧
    ¬List.Chain' (fun a b => a.ltJS b = true) (counterDisplays 100) := by
  constructor
  · exact animateCounter_pos_char 100 (by norm_num)
  · intro hch
    rw [counterDisplays] at hch
    rcases List.chain'_append.mp hch with ⟨hleft, -, -⟩
    rw [List.chain'_map] at hleft
    have h124 : (124 : ℕ) = Nat.succ 123 := rfl
    rw [h124, List.chain'_range_succ] at hleft
    have h45 := hleft 4 (by omega)
    have e1 : ⌊(1 + ((4 : ℕ) : ℚ)) * ((100 : ℚ) / 125)⌋ = 4 := by
      have h : (1 + ((4 : ℕ) : ℚ)) * ((100 : ℚ) / 125) = ((4 : ℤ) : ℚ) := by
        push_cast; norm_num
      rw [h, Int.floor_intCast]
    have e2 : ⌊(1 + ((Nat.succ 4 : ℕ) : ℚ)) * ((100 : ℚ) / 125)⌋ = 4 := by
      rw [Int.floor_eq_iff]
      constructor
      · push_cast; norm_num
      · push_cast; norm_num
    rw [JSNum.ltJS] at h45
    rw [e1, e2] at h45
    simp at h45

/-- C3 amended.  For every positive integer target the animation increments
the running value by `target / (2000/16)` per frame; the displayed values
are *non-decreasing* (not strictly increasing: consecutive frames may
display the same floor) and the final displayed value is exactly the
target. -/
theorem counter_monotone_displays (n : ℕ) (hn : 0 < n) :
    animateCounter (.num (n : ℚ)) 125 = some (counterDisplays (n : ℚ)) ∧
    List.Chain' numLE (counterDisplays (n : ℚ)) ∧
    (counterDisplays (n : ℚ)).getLast? = some (.num (n : ℚ)) := by
  have ht : (0 : ℚ) < (n : ℚ) := by exact_mod_cast hn
  have hx : (0 : ℚ) ≤ (n : ℚ) / 125 := by positivity
  refine ⟨animateCounter_pos_char _ ht, ?_, ?_⟩
  · rw [counterDisplays]
    rw [List.chain'_append]
    refine ⟨?_, List.chain'_singleton _, ?_⟩
    · rw [List.chain'_map]
      have h124 : (124 : ℕ) = Nat.succ 123 := rfl
      rw [h124, List.chain'_range_succ]
      intro m hm
      show numLE (.num _) (.num _)
      rw [numLE]
      have harg : (1 + (m : ℚ)) * ((n : ℚ) / 125)
          ≤ (1 + ((Nat.succ m : ℕ) : ℚ)) * ((n : ℚ) / 125) := by
        apply mul_le_mul_of_nonneg_right _ hx
        push_cast
        linarith
      exact_mod_cast Int.floor_mono harg
    · intro x hx' y hy'
      rw [List.range_succ, List.map_append, List.map_cons, List.map_nil,
        List.getLast?_concat] at hx'
      rw [List.head?_cons] at hy'
      simp only [Option.mem_def, Option.some.injEq] at hx' hy'
      subst hx'
      subst hy'
      rw [numLE]
      have hle : (1 + ((123 : ℕ) : ℚ)) * ((n : ℚ) / 125) ≤ (n : ℚ) := by
        push_cast
        nlinarith [ht.le]
      calc ((⌊(1 + ((123 : ℕ) : ℚ)) * ((n : ℚ) / 125)⌋ : ℤ) : ℚ)
          ≤ (1 + ((123 : ℕ) : ℚ)) * ((n : ℚ) / 125) := Int.floor_le _
        _ ≤ (n : ℚ) := hle
  · rw [counterDisplays]
    exact List.getLast?_concat _

/-- C3 witness for the amended theorem, at target 100. -/
theorem counter_monotone_displays_witness :
    0 < 100 ∧
    (animateCounter (.num ((100 : ℕ) : ℚ)) 125 = some (counterDisplays ((100 : ℕ) : ℚ)) ∧
      List.Chain' numLE (counterDisplays ((100 : ℕ) : ℚ)) ∧
      (counterDisplays ((100 : ℕ) : ℚ)).getLast? = some (.num ((100 : ℕ) : ℚ))) :=
  ⟨by decide, counter_monotone_displays 100 (by decide)⟩

/-- C10.  The frame loop terminates for every parsed target: some finite
fuel suffices (125 frames for positive targets), and for a zero, negative
or `NaN` target the very first comparison `current < target` is false, so
the loop writes the target once and stops immediately. -/
theorem counter_terminates :
    ∀ target : JSNum,
      (∃ fuel : ℕ, (animateCounter target fuel).isSome = true) ∧
      (target.nonPos = true → animateCounter target 1 = some [target]) := by
  intro target
  cases target with
  | nan => exact ⟨⟨1, rfl⟩, fun _ => rfl⟩
  | num t =>
      have key : t ≤ 0 → animateCounter (.num t) 1 = some [.num t] := by
        intro hp
        have hnp : ¬((0 : ℚ) + t / 125 < t) := by
          intro hlt; linarith
        simp only [animateCounter, JSNum.divConst, updateCounter, JSNum.add, JSNum.ltJS,
          decide_eq_true_eq]
        rw [if_neg hnp]
      constructor
      · by_cases ht : 0 < t
        · exact ⟨125, by rw [animateCounter_pos_char t ht]; rfl⟩
        · push_neg at ht
          exact ⟨1, by rw [key ht]; rfl⟩
      · intro hp
        simp only [JSNum.nonPos, decide_eq_true_eq] at hp
        exact key hp

/-- C10 witness: the `NaN` target stops after a single frame, writing `NaN`
once. -/
theorem counter_terminates_witness :
    JSNum.nan.nonPos = true ∧ animateCounter .nan 1 = some [.nan] :=
  ⟨rfl, (counter_terminates .nan).2 rfl⟩

end GymSite
